import Mathlib

/-!
Shallow embedding of the `nerr` structured error-annotation library
(file `nerr.go`, second/authoritative variant).

Go's `error` interface values reaching this library are either `nil`
(modelled by `Option`), a `*nerr.Error` node, or a foreign error that only
exposes its `Error() string` text.  Machine `int` is modelled by `Int`
(no arithmetic is performed on codes, only comparisons, so overflow is
irrelevant).  `runtime.Caller` output (the `Place` field) is modelled as an
explicit `place : String` parameter of the constructors.
-/

namespace Nerr

/-- A Go `error` value as seen by this library: either one of the library's
own `*Error` nodes (fields `Op`, `Code`, `Place`, `Err` in source order,
with `Err == nil` modelled by `none`), or a foreign error carrying only its
rendered text (`errors.New`, driver errors, ...). -/
inductive GoErr where
  | node (op : String) (code : Int) (place : String) (err : Option GoErr)
  | foreign (msg : String)

mutual

/-- Structural equality of Go error values is decidable. -/
def GoErr.deq : (a b : GoErr) → Decidable (a = b)
  | .foreign m, .foreign n =>
      decidable_of_iff (m = n)
        (by constructor
            · intro h; rw [h]
            · intro h; injection h)
  | .foreign _, .node _ _ _ _ => isFalse (fun h => GoErr.noConfusion h)
  | .node _ _ _ _, .foreign _ => isFalse (fun h => GoErr.noConfusion h)
  | .node o1 c1 p1 e1, .node o2 c2 p2 e2 =>
      haveI : Decidable (e1 = e2) := GoErr.deqOpt e1 e2
      decidable_of_iff (o1 = o2 ∧ c1 = c2 ∧ p1 = p2 ∧ e1 = e2)
        (by constructor
            · rintro ⟨h1, h2, h3, h4⟩; rw [h1, h2, h3, h4]
            · intro h; injection h with h1 h2 h3 h4; exact ⟨h1, h2, h3, h4⟩)

/-- Auxiliary decidability for the optional cause field. -/
def GoErr.deqOpt : (a b : Option GoErr) → Decidable (a = b)
  | none, none => isTrue rfl
  | none, some _ => isFalse (fun h => Option.noConfusion h)
  | some _, none => isFalse (fun h => Option.noConfusion h)
  | some x, some y =>
      match GoErr.deq x y with
      | isTrue h => isTrue (by rw [h])
      | isFalse h => isFalse (fun hh => h (Option.some.inj hh))

end

instance : DecidableEq GoErr := GoErr.deq

/-- The `nerr.Error` struct under construction (`e := &Error{}` in
`NewLevel`); `Err` is the Go `error` field, `nil` modelled as `none`. -/
structure Error where
  Op : String
  Code : Int
  Place : String
  Err : Option GoErr
deriving DecidableEq

/-- View a finished `*Error` as a Go error value. -/
def Error.toGoErr (e : Error) : GoErr :=
  GoErr.node e.Op e.Code e.Place e.Err

/-- Go `strings.Join(l, sep)`. -/
def joinSep (sep : String) : List String → String
  | [] => ""
  | [x] => x
  | x :: y :: rest => x ++ sep ++ joinSep sep (y :: rest)

/-- Source `TopCode` on a non-nil error: `if v.Code != 0 return v.Code;
return TopCode(v.Err)`, with a non-node error (the `default` branch) and a
nil cause both yielding 0. -/
def TopCodeE : GoErr → Int
  | .foreign _ => 0
  | .node _ c _ none => if c ≠ 0 then c else 0
  | .node _ c _ (some k) => if c ≠ 0 then c else TopCodeE k

/-- Source `TopCode(e error) int`, `nil` input included. -/
def TopCode : Option GoErr → Int
  | none => 0
  | some g => TopCodeE g

/-- One entry of `Trace`: `strings.Join(info, "; ")` where `info` is the
node's `Place`, then `"op: "+Op` when the label is non-empty, then
`"code: %d"` when the node's own code is non-zero. -/
def traceEntry (op : String) (c : Int) (p : String) : String :=
  joinSep "; " ([p] ++
    (if op.length > 0 then ["op: " ++ op] else []) ++
    (if c ≠ 0 then ["code: " ++ toString c] else []))

/-- Source `Trace` on a non-nil error: one entry per node, outermost first;
the `default` branch (foreign error) contributes nothing. -/
def TraceE : GoErr → List String
  | .foreign _ => []
  | .node op c p none => [traceEntry op c p]
  | .node op c p (some k) => traceEntry op c p :: TraceE k

/-- Source `Trace(e error) []string`, `nil` input included. -/
def Trace : Option GoErr → List String
  | none => []
  | some g => TraceE g

/-- The `res` list built at the start of `(*Error).Error()`: the `op:` part
when the label is non-empty, the `code:` part when `e.TopCode() > 0`, and
the `source:` part when the trace is non-empty (taking its last entry). -/
def renderParts (op : String) (topc : Int) (tr : List String) : List String :=
  (if op.length > 0 then ["op: " ++ op] else []) ++
  (if topc > 0 then ["code: " ++ toString topc] else []) ++
  (if tr.length > 0 then ["source: " ++ tr.getLastD ""] else [])

/-- Source `(*Error).Error()`.  A foreign error renders as its own text
(`fmt`'s `%v` of an error calls `Error()`).  For a node: build `res`,
return `"undefined"` when `res` is empty and there is no cause, else join
with `", "`; a cause is appended as `" => <cause text>"`, or replaces the
whole string when the joined part is empty. -/
def errorText : GoErr → String
  | .foreign msg => msg
  | .node op c p none =>
      let res := renderParts op (TopCodeE (.node op c p none)) (TraceE (.node op c p none))
      if res.length = 0 then "undefined"
      else joinSep ", " res
  | .node op c p (some k) =>
      let res := renderParts op (TopCodeE (.node op c p (some k))) (TraceE (.node op c p (some k)))
      let s := joinSep ", " res
      if s.length = 0 then errorText k
      else s ++ " => " ++ errorText k

/-- Source `(*Error).Unwrap()`: the node itself when `Err` is nil, else the
cause.  The Go return type is a (nilable) `error`; the returned value is
never nil, which the `Option` result makes visible. -/
def Error.Unwrap (e : Error) : Option GoErr :=
  match e.Err with
  | none => some e.toGoErr
  | some c => some c

/-- Modelled from the spec: the external error-code enumeration's opaque
`name(code) -> string` lookup (`eno.Name`, not part of this repository).
Its concrete values are irrelevant to every claim; only that it is some
fixed function of the code matters. -/
def enoName (n : Int) : String :=
  "errcode " ++ toString n

/-- One variadic `any` argument of the constructors, covering exactly the
runtime kinds `prepareProperty` dispatches on: the nil interface, `string`,
`eno.ErrNo`, plain `int`, a non-nil `error` value, `[]error` (whose
elements may be nil), and `[]any`.  (The `default: panic` branch for any
other type is outside the model; no claim exercises it.  `int8`/`int32`
arguments, whose `v.(int)` assertion would itself panic, are likewise not
modelled.) -/
inductive Arg where
  | nilArg
  | str (s : String)
  | errNo (n : Int)
  | int (n : Int)
  | err (g : GoErr)
  | errList (es : List (Option GoErr))
  | anyList (xs : List Arg)

/-- Go `fmt.Sprintf("%v", e)` for a nil-able error element of a slice:
`"<nil>"` for nil, else the error's own text. -/
def fmtErrOpt : Option GoErr → String
  | none => "<nil>"
  | some g => errorText g

mutual

/-- Go `fmt.Sprintf("%v", arg)` for the argument kinds of the model: a
string prints as itself, integers in decimal, an error via its `Error()`
text, and slices in `[elem elem ...]` form. -/
def fmtV : Arg → String
  | .nilArg => "<nil>"
  | .str s => s
  | .errNo n => toString n
  | .int n => toString n
  | .err g => errorText g
  | .errList es => "[" ++ joinSep " " (es.map fmtErrOpt) ++ "]"
  | .anyList xs => "[" ++ joinSep " " (fmtVList xs) ++ "]"

/-- Element-wise `%v` rendering of a `[]any` slice. -/
def fmtVList : List Arg → List String
  | [] => []
  | a :: rest => fmtV a :: fmtVList rest

end

/-- Outcome of `prepareProperty`: a panic (fatal usage error), or the
updated node together with the Go function's boolean result. -/
inductive PrepResult where
  | panicMsg (msg : String)
  | ok (e : Error) (keep : Bool)
deriving DecidableEq

/-- The `case error` branch of `prepareProperty`: a second cause panics
with "error duplication", otherwise the cause slot is filled. -/
def addCause (e : Error) (g : GoErr) : PrepResult :=
  if e.Err.isSome then .panicMsg "error duplication"
  else .ok ⟨e.Op, e.Code, e.Place, some g⟩ true

/-- Source `prepareProperty(e *Error, arg any) bool`.  Mutation of `e` is
made explicit in the result.  The two singleton-collection branches
(`len(v) == 1`) recurse into single-property handling; for `[]error` the
recursion target is the element viewed as an `any` (a nil element behaves
like the nil argument, a non-nil one like the `case error` branch), which
is inlined here. -/
def prepareProperty (e : Error) (arg : Arg) : PrepResult :=
  match arg with
  | .nilArg => .ok e false
  | .str v =>
      if e.Op.length > 0 then
        if v.length > 0 ∧ e.Op ≠ v then
          .ok ⟨e.Op ++ ", " ++ v, e.Code, e.Place, e.Err⟩ true
        else .ok e true
      else .ok ⟨v, e.Code, e.Place, e.Err⟩ true
  | .errNo n =>
      if e.Op.length = 0 then .ok ⟨enoName n, n, e.Place, e.Err⟩ true
      else .ok ⟨e.Op, n, e.Place, e.Err⟩ true
  | .int n =>
      if e.Code ≠ 0 then .panicMsg "code duplication"
      else .ok ⟨e.Op, n, e.Place, e.Err⟩ true
  | .err g => addCause e g
  | .errList [x] =>
      (match x with
       | none => .ok e false
       | some g => addCause e g)
  | .errList v =>
      let errs := (v.filterMap id).map errorText
      if errs.length > 0 then
        if e.Err.isSome then .panicMsg "error duplication"
        else .ok ⟨e.Op, e.Code, e.Place, some (.foreign (joinSep ", " errs))⟩ true
      else .ok e false
  | .anyList [a] => prepareProperty e a
  | .anyList v =>
      let errs := v.filterMap (fun a =>
        match a with
        | .nilArg => none
        | b => let text := fmtV b; if text.length > 0 then some text else none)
      if errs.length > 0 then
        if e.Err.isSome then .panicMsg "error duplication"
        else .ok ⟨e.Op, e.Code, e.Place, some (.foreign (joinSep ", " errs))⟩ true
      else .ok e false

/-- Outcome of a constructor call: a panic, or the returned error value
(`none` = the Go `nil` result). -/
inductive NResult where
  | panicMsg (msg : String)
  | ret (e : Option GoErr)
deriving DecidableEq

/-- The argument loop of `NewLevel`: `if !prepareProperty(e, arg) { return
nil }`, otherwise keep the updated node and continue; an exhausted list
returns the finished node. -/
def newLoop : Error → List Arg → NResult
  | e, [] => .ret (some e.toGoErr)
  | e, a :: rest =>
      match prepareProperty e a with
      | .panicMsg m => .panicMsg m
      | .ok e2 true => newLoop e2 rest
      | .ok _ false => .ret none

/-- Source `NewLevel(codeLevel int, args ...any) error` applied to an
explicit (already splatted) argument list; `place` stands for the
`runtime.Caller` capture.  A single nil-interface argument short-circuits
to nil.  (The second short-circuit, for a single typed-nil `error`
argument, has no representative in the model: `Arg.err` carries only
non-nil errors.) -/
def NewLevel (place : String) (args : List Arg) : NResult :=
  match args with
  | [Arg.nilArg] => .ret none
  | _ => newLoop ⟨"", 0, place, none⟩ args

/-- Source `New(args ...any) error`, which is `NewLevel(2, args)`: the
argument slice is passed to the variadic `NewLevel` WITHOUT `...`, so
`NewLevel` receives the single `[]any` value `args` as its only
property. -/
def New (place : String) (args : List Arg) : NResult :=
  NewLevel place [Arg.anyList args]

/-- Source `IsCode(err error, code int) bool` on a non-nil error:
`TopCode(err) == code`, or recursion into `e.Err` whenever `err` is a node
with a non-nil cause (of either kind). -/
def IsCodeE : GoErr → Int → Bool
  | .foreign m, code => TopCodeE (.foreign m) == code
  | .node o c p none, code => TopCodeE (.node o c p none) == code
  | .node o c p (some k), code =>
      TopCodeE (.node o c p (some k)) == code || IsCodeE k code

/-- Source `IsCode`, `nil` input included. -/
def IsCode : Option GoErr → Int → Bool
  | none, _ => false
  | some g, code => IsCodeE g code

/-- One step of the standard unwrap loop on an arbitrary error value: a
node steps via its `Unwrap` method, a foreign error (no `Unwrap` method)
ends the loop. -/
def stepUnwrap : GoErr → Option GoErr
  | .node op c p e => Error.Unwrap ⟨op, c, p, e⟩
  | .foreign _ => none

/-- Iterated `stepUnwrap` (`none` once the loop has ended). -/
def iterUnwrap : Nat → GoErr → Option GoErr
  | 0, e => some e
  | n + 1, e =>
      match stepUnwrap e with
      | none => none
      | some e2 => iterUnwrap n e2

/-- Modelled from the spec: the conventional equality-chain matching loop
(`errors.Is`, delegated to by `Is`) with explicit fuel — compare, then
unwrap one step and repeat; a value without an `Unwrap` method ends the
loop with `false`.  `none` means the fuel ran out with the loop still
running. -/
def matchesFuel : Nat → GoErr → GoErr → Option Bool
  | 0, _, _ => none
  | fuel + 1, err, target =>
      if err = target then some true
      else
        match stepUnwrap err with
        | none => some false
        | some e2 => matchesFuel fuel e2 target

/-- The list of node codes along a chain, outermost first; a foreign
terminal contributes nothing (it has no code). -/
def chainCodes : GoErr → List Int
  | .foreign _ => []
  | .node _ c _ none => [c]
  | .node _ c _ (some k) => c :: chainCodes k

/-- The chain-code list of a nil-able error. -/
def chainCodesOpt : Option GoErr → List Int
  | none => []
  | some g => chainCodes g

/-- Top-level code as the words of claim C1 describe it: walk to the cause
first and use the current node's own code only if the recursive call on
the cause yields zero; a non-node terminal contributes 0 and nil yields
0.  This is the deepest-non-zero policy, stated for comparison with the
source's `TopCode`. -/
def topCodeDeepestE : GoErr → Int
  | .foreign _ => 0
  | .node _ c _ none => c
  | .node _ c _ (some k) =>
      let d := topCodeDeepestE k
      if d ≠ 0 then d else c

/-- All suffixes of a chain reachable by following `Err` links from nodes,
the starting error included; a foreign terminal is its own only suffix. -/
def suffixes : GoErr → List GoErr
  | .foreign m => [.foreign m]
  | .node o c p none => [.node o c p none]
  | .node o c p (some k) => .node o c p (some k) :: suffixes k

/-- Code membership as the words of claim C8 describe it: the top-level
code of the chain equals the target, or recursion into the immediate cause
WHEN THAT CAUSE IS ITSELF A NODE finds the target.  Stated for comparison
with the source's `IsCode`, which recurses into any non-nil cause. -/
def isCodeClaim : GoErr → Int → Bool
  | .node o c p (some (.node o2 c2 p2 e2)), code =>
      TopCodeE (.node o c p (some (.node o2 c2 p2 e2))) == code ||
        isCodeClaim (.node o2 c2 p2 e2) code
  | g, code => TopCodeE g == code

/-- Rendering as amended for claim C6: the `op:` part iff the label is
non-empty, the `code:` part iff the aggregated top-level code is strictly
positive, and the `source:` part always (a node's trace is never empty),
joined with `", "`; a cause is always appended as `" => <cause text>"`
(the joined part is never empty, so neither the `"undefined"` branch nor
the replace-by-cause branch of the source can fire). -/
def renderAmended (op : String) (c : Int) (p : String) (err : Option GoErr) : String :=
  let s := joinSep ", "
    ((if op.length > 0 then ["op: " ++ op] else []) ++
     (if TopCodeE (.node op c p err) > 0 then
        ["code: " ++ toString (TopCodeE (.node op c p err))] else []) ++
     ["source: " ++ (TraceE (.node op c p err)).getLastD ""])
  match err with
  | none => s
  | some k => s ++ " => " ++ errorText k

/-!
Theorems.  Helper lemmas come first, then one theorem per claim (with its
counterexample and witness where required).
-/

/-- Joining a list whose last element is `x` yields a string at least as
long as `x`. -/
theorem joinSep_append_single_length : ∀ (l : List String) (x : String),
    x.length ≤ (joinSep ", " (l ++ [x])).length
  | [], _ => le_refl _
  | a :: l2, x => by
      have ih := joinSep_append_single_length l2 x
      cases h : l2 ++ [x] with
      | nil => exact absurd h (by simp)
      | cons y ys =>
          rw [List.cons_append, h, joinSep, ← h]
          simp [String.length_append]
          omega

/-- The source's `TopCode` is the first non-zero entry of the chain-code
list, outermost first (0 when there is none). -/
theorem topCode_filter_head : ∀ g : GoErr,
    TopCodeE g = ((chainCodes g).filter (fun c => c != 0)).headD 0
  | .foreign _ => rfl
  | .node _ c _ none => by
      by_cases h : c = 0
      · subst h; simp [TopCodeE, chainCodes]
      · simp [TopCodeE, chainCodes, h]
  | .node _ c _ (some k) => by
      have ih := topCode_filter_head k
      by_cases h : c = 0
      · subst h; simp [TopCodeE, chainCodes, ih]
      · simp [TopCodeE, chainCodes, h]

/-- The source's `IsCode` tests whether the target is the top-level code of
some suffix of the chain (the foreign terminal counting as a suffix). -/
theorem isCode_any_suffix : ∀ (g : GoErr) (code : Int),
    IsCodeE g code = (suffixes g).any (fun s => TopCodeE s == code)
  | .foreign _, _ => by simp [IsCodeE, suffixes]
  | .node _ _ _ none, _ => by simp [IsCodeE, suffixes]
  | .node o c p (some k), code => by
      have ih := isCode_any_suffix k code
      simp [IsCodeE, suffixes, ih]

/-- Claim C1 counterexample: on the chain outer(code 1) => inner(code 42)
the source's `TopCode` returns the SHALLOWEST non-zero code 1, while the
claimed walk-to-cause-first policy would return the deepest one, 42. -/
theorem c1_counterexample :
    TopCodeE (.node "outer" 1 "" (some (.node "inner" 42 "" none))) = 1 ∧
    topCodeDeepestE (.node "outer" 1 "" (some (.node "inner" 42 "" none))) = 42 := by
  decide

/-- Claim C1 (amended): `TopCode` returns the code of the SHALLOWEST node
in the chain with a non-zero code — the current node's own code is used
whenever it is non-zero and the cause is consulted only when it is zero;
equivalently, the first non-zero entry of the outermost-first chain-code
list.  A non-node terminal contributes 0 and nil input yields 0. -/
theorem c1_amended : ∀ e : Option GoErr,
    TopCode e = ((chainCodesOpt e).filter (fun c => c != 0)).headD 0 :=
  fun e =>
    match e with
    | none => rfl
    | some g => topCode_filter_head g

/-- Claim C2 counterexample: `New(5, 7)` does not abort — it returns a
node whose cause is the synthetic error "5, 7". -/
theorem c2_counterexample :
    New "" [Arg.int 5, Arg.int 7] =
      .ret (some (.node "" 0 "" (some (.foreign "5, 7")))) ∧
    New "" [Arg.int 5, Arg.int 7] ≠ .panicMsg "code duplication" := by
  decide

/-- Claim C2 (amended): the "code duplication" abort fires only on the
splatted `NewLevel` path, when a second plain integer reaches a node whose
code is already non-zero; via `New` the argument slice is passed unsplatted
and multi-argument calls are aggregated into a synthetic cause without any
abort; and a domain error code supplied second overwrites the code (and
seeds the label) without aborting. -/
theorem c2_amended (a b : Int) (place : String) (h : a ≠ 0) :
    NewLevel place [Arg.int a, Arg.int b] = .panicMsg "code duplication" ∧
    NewLevel place [Arg.int a, Arg.errNo b] =
      .ret (some (.node (enoName b) b place none)) ∧
    New "" [Arg.int 5, Arg.int 7] =
      .ret (some (.node "" 0 "" (some (.foreign "5, 7")))) := by
  refine ⟨?_, ?_, by decide⟩
  · simp [NewLevel, newLoop, prepareProperty, h]
  · simp [NewLevel, newLoop, prepareProperty, Error.toGoErr]

/-- Claim C2 witness. -/
theorem c2_amended_witness :
    (5 : Int) ≠ 0 ∧
    (NewLevel "q" [Arg.int 5, Arg.int 7] = .panicMsg "code duplication" ∧
     NewLevel "q" [Arg.int 5, Arg.errNo 7] =
       .ret (some (.node (enoName 7) 7 "q" none)) ∧
     New "" [Arg.int 5, Arg.int 7] =
       .ret (some (.node "" 0 "" (some (.foreign "5, 7"))))) :=
  ⟨by decide, c2_amended 5 7 "q" (by decide)⟩

/-- Claim C3 (code bug): `New(err1, err2)` does not abort — the unsplatted
argument slice takes the `[]any` aggregation path, producing a single
synthetic cause "E1, E2" — whereas the same two arguments reaching
`NewLevel` splatted (as `prepareProperty` and the spec intend) do panic
with "error duplication". -/
theorem c3_code_eval :
    New "" [Arg.err (.foreign "E1"), Arg.err (.foreign "E2")] =
      .ret (some (.node "" 0 "" (some (.foreign "E1, E2")))) ∧
    NewLevel "" [Arg.err (.foreign "E1"), Arg.err (.foreign "E2")] =
      .panicMsg "error duplication" := by
  decide

/-- Claim C4 counterexample: `New("A", nil)` is NOT the same as
`New("A")` — the former aggregates into a node with synthetic cause "A"
and empty operation, the latter sets operation "A". -/
theorem c4_counterexample :
    New "" [Arg.str "A", Arg.nilArg] ≠ New "" [Arg.str "A"] := by
  decide

/-- Claim C4 (amended): `construct(nil)` and `construct()` do both yield
the absent value; but an absent value elsewhere in the list is not inert:
via `New` the whole multi-argument list is aggregated as a collection
(nils filtered from the aggregation, so `New("A", nil)` yields a node with
synthetic cause "A" rather than operation "A"), and on the splatted
`NewLevel` path a nil property makes the whole construction return the
absent value. -/
theorem c4_amended :
    (∀ place, New place [] = .ret none) ∧
    (∀ place, New place [Arg.nilArg] = .ret none) ∧
    New "" [Arg.str "A", Arg.nilArg] =
      .ret (some (.node "" 0 "" (some (.foreign "A")))) ∧
    NewLevel "" [Arg.str "A", Arg.nilArg] = .ret none :=
  ⟨fun _ => rfl, fun _ => rfl, by decide, by decide⟩

/-- Claim C5 (code bug): `New("A", "A")` yields a node with EMPTY
operation and synthetic cause "A, A" (the unsplatted argument slice takes
the aggregation path, which does not deduplicate), not operation "A";
the label merge the claim describes does hold on the splatted `NewLevel`
path, where ("A", "A") gives operation "A" and ("A", "B") gives
"A, B". -/
theorem c5_code_eval :
    New "" [Arg.str "A", Arg.str "A"] =
      .ret (some (.node "" 0 "" (some (.foreign "A, A")))) ∧
    NewLevel "" [Arg.str "A", Arg.str "A"] =
      .ret (some (.node "A" 0 "" none)) ∧
    NewLevel "" [Arg.str "A", Arg.str "B"] =
      .ret (some (.node "A, B" 0 "" none)) := by
  decide

/-- Claim C6 counterexample: a node with no operation, no code and no
cause renders as "source: " (the trace part is always present), not as
the literal "undefined"; and a node whose top-level code is the non-zero
value -1 renders WITHOUT a "code:" part (the source requires the code to
be strictly positive), its rendering being just the source part. -/
theorem c6_counterexample :
    errorText (.node "" 0 "" none) ≠ "undefined" ∧
    errorText (.node "" 0 "" none) = "source: " ∧
    errorText (.node "" (-1) "" none) = "source: ; code: -1" := by
  decide

/-- Claim C6 (amended): render produces the part "op: <operation>" iff an
operation label is set, "code: <code>" iff the aggregated top-level code
is STRICTLY POSITIVE, and "source: <innermost trace entry>" ALWAYS (a
node's trace is never empty), joined with ", ", with
" => <cause's own rendering>" appended when a cause exists; consequently
the "undefined" branch of the source is unreachable for any node. -/
theorem c6_amended : ∀ (op : String) (c : Int) (p : String) (err : Option GoErr),
    errorText (.node op c p err) = renderAmended op c p err := by
  intro op c p err
  cases err with
  | none =>
      have htr : (0:Nat) < ([traceEntry op c p] : List String).length := by simp
      simp only [errorText, renderParts, TraceE, renderAmended, if_pos htr]
      have hlen : ¬ (((if op.length > 0 then ["op: " ++ op] else []) ++
          (if TopCodeE (GoErr.node op c p none) > 0 then
             ["code: " ++ toString (TopCodeE (GoErr.node op c p none))] else []) ++
          ["source: " ++ ([traceEntry op c p] : List String).getLastD ""]).length = 0) := by
        simp only [List.length_append, List.length_cons, List.length_nil]
        omega
      rw [if_neg hlen]
  | some k =>
      have htr : (0:Nat) < (traceEntry op c p :: TraceE k).length := by simp
      simp only [errorText, renderParts, TraceE, renderAmended, if_pos htr]
      have h := joinSep_append_single_length
        ((if op.length > 0 then ["op: " ++ op] else []) ++
         (if TopCodeE (.node op c p (some k)) > 0 then
            ["code: " ++ toString (TopCodeE (.node op c p (some k)))] else []))
        ("source: " ++ (traceEntry op c p :: TraceE k).getLastD "")
      have hlen : ¬ ((joinSep ", "
          ((if op.length > 0 then ["op: " ++ op] else []) ++
           (if TopCodeE (.node op c p (some k)) > 0 then
              ["code: " ++ toString (TopCodeE (.node op c p (some k)))] else []) ++
           ["source: " ++ (traceEntry op c p :: TraceE k).getLastD ""])).length = 0) := by
        intro hz
        rw [hz] at h
        rw [String.length_append] at h
        have h8 : ("source: ").length = 8 := rfl
        omega
      rw [if_neg hlen]

/-- Claim C7 (confirmed): `Unwrap` on a node with no cause returns the
node itself (some value, never the absent one), and on a node with a
cause returns that cause. -/
theorem c7_unwrap_self : ∀ (op : String) (c : Int) (p : String),
    Error.Unwrap ⟨op, c, p, none⟩ = some (Error.toGoErr ⟨op, c, p, none⟩) ∧
    ∀ g : GoErr, Error.Unwrap ⟨op, c, p, some g⟩ = some g :=
  fun _ _ _ => ⟨rfl, fun _ => rfl⟩

/-- Claim C8 counterexample: for the chain node(code 5, foreign cause) and
target code 0, the source's `IsCode` recurses into the FOREIGN cause
(whose top-level code is 0) and answers true, while the claim's
recurse-only-into-node-causes reading answers false. -/
theorem c8_counterexample :
    IsCode (some (.node "q" 5 "" (some (.foreign "f")))) 0 = true ∧
    isCodeClaim (.node "q" 5 "" (some (.foreign "f"))) 0 = false := by
  decide

/-- Claim C8 (amended): `IsCode(nil, c)` is false, and on a non-nil chain
`IsCode` is true iff c is the top-level code of SOME suffix of the chain,
where recursion descends into ANY non-nil cause — a chain-terminating
foreign error counts as a suffix and contributes top-level code 0. -/
theorem c8_amended :
    (∀ code : Int, IsCode none code = false) ∧
    ∀ (g : GoErr) (code : Int),
      IsCode (some g) code = (suffixes g).any (fun s => TopCodeE s == code) :=
  ⟨fun _ => rfl, fun g code => isCode_any_suffix g code⟩

/-- Claim C9 counterexample: a two-element collection holding one non-nil
error and one nil is NOT handled as its single non-absent element — the
element's identity is lost and replaced by a synthetic rendering-based
cause (the source's singleton shortcut tests `len(v) == 1`, not "one
non-absent element"). -/
theorem c9_counterexample :
    New "" [Arg.errList [some (.node "A" 0 "" none), none]] ≠
      New "" [Arg.err (.node "A" 0 "" none)] := by
  decide

/-- Claim C9 (amended): a collection of LENGTH exactly one is handled as
its sole element (`construct([e1])` equals `construct(e1)`); any other
length takes the aggregation path: absent entries are filtered out and the
remaining errors' renderings are joined with ", " into one synthetic
cause, and an empty filtered result makes the construction return the
absent value. -/
theorem c9_amended :
    (∀ (e1 : GoErr) (place : String),
      New place [Arg.errList [some e1]] = New place [Arg.err e1]) ∧
    (∀ (a b c : GoErr) (place : String),
      New place [Arg.errList [some a, some b, some c]] =
        .ret (some (.node "" 0 place (some (.foreign
          (joinSep ", " [errorText a, errorText b, errorText c])))))) ∧
    (∀ place, New place [Arg.errList []] = .ret none) ∧
    (∀ place, New place [Arg.errList [none, none]] = .ret none) :=
  ⟨fun _ _ => rfl, fun _ _ _ _ => rfl, fun _ => rfl, fun _ => rfl⟩

/-- Claim C10 (confirmed): a node without a cause is a fixed point of the
one-step unwrap, so iterating unwrap from it yields the same node forever
and never reaches the absent value; consequently the standard
equality-chain matching loop, run on such a node against any other target,
never returns — no amount of fuel suffices. -/
theorem c10_nontermination (op : String) (c : Int) (p : String) (target : GoErr)
    (h : target ≠ GoErr.node op c p none) :
    (∀ n, iterUnwrap n (GoErr.node op c p none) = some (GoErr.node op c p none)) ∧
    (∀ fuel, matchesFuel fuel (GoErr.node op c p none) target = none) := by
  constructor
  · intro n
    induction n with
    | zero => rfl
    | succ m ih => simpa [iterUnwrap, stepUnwrap, Error.Unwrap, Error.toGoErr] using ih
  · intro fuel
    induction fuel with
    | zero => rfl
    | succ m ih =>
        simp only [matchesFuel]
        rw [if_neg (fun hh => h hh.symm)]
        simpa [stepUnwrap, Error.Unwrap, Error.toGoErr] using ih

/-- Claim C10 witness. -/
theorem c10_nontermination_witness :
    (GoErr.foreign "t" ≠ GoErr.node "" 0 "" none) ∧
    iterUnwrap 5 (GoErr.node "" 0 "" none) = some (GoErr.node "" 0 "" none) ∧
    matchesFuel 7 (GoErr.node "" 0 "" none) (GoErr.foreign "t") = none := by
  have h : GoErr.foreign "t" ≠ GoErr.node "" 0 "" none :=
    fun hh => GoErr.noConfusion hh
  exact ⟨h, (c10_nontermination "" 0 "" _ h).1 5, (c10_nontermination "" 0 "" _ h).2 7⟩

end Nerr
